import Mathlib

/-!
Shallow embedding of the md2conf Markdown pre-processing pipeline
(`md2conf/markdown.py`) and the LaTeX rasterizer stub (`md2conf/latex.py`).

Python strings are modelled as `List Char` (one scalar value per element);
a top-level wrapper converts from Lean `String`.  The stateful line loop of
`_preprocess_list_indentation` is modelled by explicit state passing.
-/

namespace Md2Conf

abbrev Line := List Char

/-- The set of characters stripped by Python `str.strip()` / `str.lstrip()`
(ASCII whitespace, the C0 separators, and the Unicode space characters). -/
def pyIsSpace (c : Char) : Bool :=
  c == ' ' || c == '\t' || c == '\n' || c == '\r' || c == '\x0b' || c == '\x0c'
  || (0x1c ≤ c.toNat && c.toNat ≤ 0x1f) || c.toNat == 0x85 || c.toNat == 0xa0
  || c.toNat == 0x1680 || (0x2000 ≤ c.toNat && c.toNat ≤ 0x200a)
  || c.toNat == 0x2028 || c.toNat == 0x2029 || c.toNat == 0x202f
  || c.toNat == 0x205f || c.toNat == 0x3000

/-- Python `line.lstrip()`. -/
def pyLstrip (l : Line) : Line := l.dropWhile pyIsSpace

/-- Removal of trailing whitespace (the second half of Python `str.strip()`). -/
def stripTrailing : Line → Line
  | [] => []
  | c :: rest =>
    let r := stripTrailing rest
    if r.isEmpty && pyIsSpace c then [] else c :: r

/-- Python `line.strip()`. -/
def pyStrip (l : Line) : Line := stripTrailing (pyLstrip l)

/-- Python `len(line) - len(line.lstrip())`: the leading-whitespace count. -/
def leadingWS (l : Line) : Nat := l.length - (pyLstrip l).length

/-- Python `s.startswith(('* ', '- ', '+ '))`. -/
def bulletStart (s : Line) : Bool :=
  ['*', ' '].isPrefixOf s || ['-', ' '].isPrefixOf s || ['+', ' '].isPrefixOf s

/-- Python `line.strip().startswith(('```', '~~~'))`: a fence-delimiter line. -/
def fenceLine (l : Line) : Bool :=
  ['`', '`', '`'].isPrefixOf (pyStrip l) || ['~', '~', '~'].isPrefixOf (pyStrip l)

/-- Python `stripped.startswith('!!!')`: an admonition opener. -/
def admStart (s : Line) : Bool := ['!', '!', '!'].isPrefixOf s

/-- Python substring containment `pat in s`. -/
def containsSeq (pat : Line) : Line → Bool
  | [] => pat.isPrefixOf []
  | c :: rest => pat.isPrefixOf (c :: rest) || containsSeq pat rest

/-- The inclusive codepoint ranges on which Python `str.isdigit` is true for
a single character: the characters of Unicode numeric type Decimal or Digit
(Unicode 14.0.0, as shipped with CPython 3.11). -/
def pyDigitRanges : List (Nat × Nat) :=
  [(0x30, 0x39), (0xb2, 0xb3), (0xb9, 0xb9), (0x660, 0x669), (0x6f0, 0x6f9),
   (0x7c0, 0x7c9), (0x966, 0x96f), (0x9e6, 0x9ef), (0xa66, 0xa6f),
   (0xae6, 0xaef), (0xb66, 0xb6f), (0xbe6, 0xbef), (0xc66, 0xc6f),
   (0xce6, 0xcef), (0xd66, 0xd6f), (0xde6, 0xdef), (0xe50, 0xe59),
   (0xed0, 0xed9), (0xf20, 0xf29), (0x1040, 0x1049), (0x1090, 0x1099),
   (0x1369, 0x1371), (0x17e0, 0x17e9), (0x1810, 0x1819), (0x1946, 0x194f),
   (0x19d0, 0x19da), (0x1a80, 0x1a89), (0x1a90, 0x1a99), (0x1b50, 0x1b59),
   (0x1bb0, 0x1bb9), (0x1c40, 0x1c49), (0x1c50, 0x1c59), (0x2070, 0x2070),
   (0x2074, 0x2079), (0x2080, 0x2089), (0x2460, 0x2468), (0x2474, 0x247c),
   (0x2488, 0x2490), (0x24ea, 0x24ea), (0x24f5, 0x24fd), (0x24ff, 0x24ff),
   (0x2776, 0x277e), (0x2780, 0x2788), (0x278a, 0x2792), (0xa620, 0xa629),
   (0xa8d0, 0xa8d9), (0xa900, 0xa909), (0xa9d0, 0xa9d9), (0xa9f0, 0xa9f9),
   (0xaa50, 0xaa59), (0xabf0, 0xabf9), (0xff10, 0xff19), (0x104a0, 0x104a9),
   (0x10a40, 0x10a43), (0x10d30, 0x10d39), (0x10e60, 0x10e68),
   (0x11052, 0x1105a), (0x11066, 0x1106f), (0x110f0, 0x110f9),
   (0x11136, 0x1113f), (0x111d0, 0x111d9), (0x112f0, 0x112f9),
   (0x11450, 0x11459), (0x114d0, 0x114d9), (0x11650, 0x11659),
   (0x116c0, 0x116c9), (0x11730, 0x11739), (0x118e0, 0x118e9),
   (0x11950, 0x11959), (0x11c50, 0x11c59), (0x11d50, 0x11d59),
   (0x11da0, 0x11da9), (0x16a60, 0x16a69), (0x16ac0, 0x16ac9),
   (0x16b50, 0x16b59), (0x1d7ce, 0x1d7ff), (0x1e140, 0x1e149),
   (0x1e2f0, 0x1e2f9), (0x1e950, 0x1e959), (0x1f100, 0x1f10a),
   (0x1fbf0, 0x1fbf9)]

/-- Python `c.isdigit()` for a single character. -/
def pyIsDigit (c : Char) : Bool :=
  pyDigitRanges.any (fun r => r.1 ≤ c.toNat && c.toNat ≤ r.2)

/-- Python `stripped and stripped[0].isdigit() and '. ' in stripped[:10]`. -/
def numberedStart (stripped : Line) : Bool :=
  match stripped with
  | [] => false
  | c :: _ => pyIsDigit c && containsSeq ['.', ' '] (stripped.take 10)

/-- `_is_likely_2space_system(lines, current_index)` from `markdown.py`:
window `range(max(0, i-5), min(len(lines), i+5))`, collecting the positive
leading-whitespace counts of bullet lines, then testing for a count that is
even but not a multiple of 4. -/
def _is_likely_2space_system (lines : List Line) (current_index : Nat) : Bool :=
  let start := current_index - 5
  let stop := min lines.length (current_index + 5)
  let space_counts := (List.range' start (stop - start)).filterMap (fun i =>
    let line := lines.getD i []
    if !(pyStrip line).isEmpty && bulletStart (pyLstrip line) then
      (let spaces := leadingWS line
       if spaces > 0 then some spaces else none)
    else none)
  if space_counts.isEmpty then false
  else space_counts.any (fun spaces => spaces % 2 == 0 && spaces % 4 != 0)

/-- The descending index list visited by the backward loop of
`_is_list_continuation`: `range(i-1, max(-1, i-5), -1)`. -/
def backIndices (current_index : Nat) : List Nat :=
  (List.range' (current_index - 4) (current_index - (current_index - 4))).reverse

/-- The loop body of `_is_list_continuation`, one iteration per index. -/
def scanBack (lines : List Line) : List Nat → Bool
  | [] => false
  | i :: rest =>
    let line := lines.getD i []
    if !(pyStrip line).isEmpty then
      (let stripped := pyLstrip line
       if bulletStart stripped then true
       else if line.length - stripped.length == 0 then false
       else scanBack lines rest)
    else scanBack lines rest

/-- `_is_list_continuation(lines, current_index)` from `markdown.py`. -/
def _is_list_continuation (lines : List Line) (current_index : Nat) : Bool :=
  if current_index == 0 then false
  else scanBack lines (backIndices current_index)

/-- The two booleans threaded through the `_preprocess_list_indentation` loop. -/
structure St where
  inAdmonition : Bool
  inCodeBlock : Bool
deriving DecidableEq

/-- One iteration of the `for i, line in enumerate(lines)` loop of
`_preprocess_list_indentation`: returns the updated state and the emitted line. -/
def step (lines : List Line) (i : Nat) (st : St) (line : Line) : St × Line :=
  if (pyStrip line).isEmpty then (st, line)
  else
    let stripped := pyLstrip line
    if fenceLine line then ({ st with inCodeBlock := !st.inCodeBlock }, line)
    else if st.inCodeBlock then (st, line)
    else if admStart stripped then ({ st with inAdmonition := true }, line)
    else
      let st1 := if st.inAdmonition && leadingWS line == 0 && !stripped.isEmpty then
        { st with inAdmonition := false } else st
      let leading_spaces := leadingWS line
      if leading_spaces == 0 || ['`'].isPrefixOf stripped || ['#'].isPrefixOf stripped
          || ['>'].isPrefixOf stripped || st1.inAdmonition then
        (st1, line)
      else if leading_spaces % 2 == 0 && _is_likely_2space_system lines i
          && (bulletStart stripped || numberedStart stripped
              || _is_list_continuation lines i) then
        (st1, List.replicate ((leading_spaces / 2) * 4) ' ' ++ stripped)
      else (st1, line)

/-- The whole loop, processing the suffix `rest` that starts at index `i`. -/
def runAux (lines : List Line) : Nat → St → List Line → List Line
  | _, _, [] => []
  | i, st, l :: rest =>
    let p := step lines i st l
    p.2 :: runAux lines (i + 1) p.1 rest

/-- The line-level body of `_preprocess_list_indentation`. -/
def processLines (ls : List Line) : List Line :=
  runAux ls 0 ⟨false, false⟩ ls

/-- Python `content.split(sep)` for a single-character separator. -/
def splitOnChar (sep : Char) : List Char → List (List Char)
  | [] => [[]]
  | c :: rest =>
    if c = sep then [] :: splitOnChar sep rest
    else
      match splitOnChar sep rest with
      | [] => [[c]]
      | l :: ls => (c :: l) :: ls

/-- Python `content.split('\n')`. -/
def splitLines (s : List Char) : List (List Char) := splitOnChar '\n' s

/-- Python `sep.join(items)` for strings. -/
def pyJoin (sep : String) : List String → String
  | [] => ""
  | [s] => s
  | s :: rest => s ++ sep ++ pyJoin sep rest

/-- Python `'\n'.join(processed_lines)`. -/
def joinLines : List (List Char) → List Char
  | [] => []
  | [l] => l
  | l :: ls => l ++ '\n' :: joinLines ls

/-- `_preprocess_list_indentation(content)` from `markdown.py`. -/
def _preprocess_list_indentation (content : String) : String :=
  String.mk (joinLines (processLines (splitLines content.data)))

/-! ### The emoji generator (`_emoji_generator`) -/

/-- The element built by `_emoji_generator`: tag, attribute list in insertion
order, and text content. -/
structure EmojiElement where
  tag : String
  attrib : List (String × String)
  text : String
deriving DecidableEq

/-- Python truthiness-based `alias or shortname`. -/
def pyOr (a : Option String) (b : String) : String :=
  match a with
  | some s => if s.isEmpty then b else s
  | none => b

/-- Python `name.strip(":")`. -/
def stripColons (s : String) : String :=
  String.mk (((s.data.dropWhile (· == ':')).reverse.dropWhile (· == ':')).reverse)

/-- The value of one hexadecimal digit (`int(·, base=16)` rejects other
characters; the model is used on well-formed hexadecimal tokens). -/
def hexDigitVal (c : Char) : Nat :=
  if '0' ≤ c && c ≤ '9' then c.toNat - '0'.toNat
  else if 'a' ≤ c && c ≤ 'f' then c.toNat - 'a'.toNat + 10
  else if 'A' ≤ c && c ≤ 'F' then c.toNat - 'A'.toNat + 10
  else 0

/-- Python `int(item, base=16)` on a hexadecimal token. -/
def pyIntHex (s : List Char) : Nat :=
  s.foldl (fun n c => n * 16 + hexDigitVal c) 0

/-- `_emoji_generator` from `markdown.py` (the unused `title`, `category`,
`options` and `md` parameters are dropped; `chr` is modelled by
`Char.ofNat`). -/
def _emoji_generator (index shortname : String) (aliasName : Option String)
    (uc : Option String) (alt : String) : EmojiElement :=
  let name := stripColons (pyOr aliasName shortname)
  match uc with
  | some u =>
    { tag := "x-emoji"
      attrib := [("data-shortname", name), ("data-unicode", u)]
      -- "".join(chr(int(item, base=16)) for item in uc.split("-"))
      text := String.mk ((splitOnChar '-' u.data).map (fun item => Char.ofNat (pyIntHex item))) }
  | none =>
    { tag := "x-emoji"
      attrib := [("data-shortname", name)]
      text := alt }

/-- The decoding described by claim C7: the concatenation of the characters
obtained by decoding each hyphen-delimited hexadecimal token of `uc` as a
Unicode scalar value. -/
def claimDecodeUC (uc : String) : String :=
  String.mk ((splitOnChar '-' uc.data).foldr
    (fun item acc => Char.ofNat (pyIntHex item) :: acc) [])

/-! ### The fenced-block formatter (`_verbatim_formatter`) -/

/-- The observable outcome of a `_verbatim_formatter` call: the returned HTML
string, and the content of the caller-supplied `classes` list after the call
(the Python code mutates it in place with `classes.insert(0, css_class)`;
the mutation is modelled by explicit state passing). -/
structure FenceResult where
  html : String
  classes_after : Option (List String)
deriving DecidableEq

/-- `_verbatim_formatter` from `markdown.py` (the unused `options`, `md` and
`**kwargs` parameters are dropped; the `attrs` dict is an insertion-ordered
association list). -/
def _verbatim_formatter (source language css_class : String)
    (classes : Option (List String)) (id_value : String)
    (attrs : Option (List (String × String))) : FenceResult :=
  let cs : List String := match classes with
    | none => [css_class]
    | some cls => css_class :: cls
  let html_id := if id_value.isEmpty then "" else " id=\"" ++ id_value ++ "\""
  let html_class := " class=\"" ++ pyJoin " " cs ++ "\""
  let html_attrs := match attrs with
    | none => ""
    | some al =>
      if al.isEmpty then ""
      else " " ++ pyJoin " " (al.map (fun kv => kv.1 ++ "=\"" ++ kv.2 ++ "\""))
  { html := "<div" ++ html_id ++ html_class ++ html_attrs ++ ">" ++ source ++ "</div>"
    classes_after := match classes with
      | none => none
      | some cls => some (css_class :: cls) }

/-- Serialization of the remaining attributes as `key="value"` pairs in
insertion order, as claim C8 / spec section 4.3 describe it. -/
def claimAttrsSerialized : List (String × String) → String
  | [] => ""
  | kv :: rest => " " ++ kv.1 ++ "=\"" ++ kv.2 ++ "\"" ++ claimAttrsSerialized rest

/-- The rendering described by claim C8 / spec section 4.3: a `<div>` whose
opening tag carries an id only for a non-empty element id, then a class
attribute with the configured CSS class first, then the remaining attributes
in insertion order, the inner content being the raw source. -/
def claimFormatFence (source css_class : String) (extraClasses : List String)
    (elementId : String) (attrs : List (String × String)) : String :=
  "<div"
  ++ (if elementId = "" then "" else " id=\"" ++ elementId ++ "\"")
  ++ " class=\"" ++ pyJoin " " (css_class :: extraClasses) ++ "\""
  ++ claimAttrsSerialized attrs
  ++ ">" ++ source ++ "</div>"

/-! ### The LaTeX rasterizer stub (`latex.py`, matplotlib unavailable) -/

/-- The output image format (`Literal["png", "svg"]`). -/
inductive ImgFormat where
  | png
  | svg
deriving DecidableEq

/-- `_render_latex` as defined when `importlib.util.find_spec("matplotlib")
is None`: it raises `RuntimeError` (modelled as `Except.error`) and never
writes to the buffer. -/
def _render_latex_no_backend (expression : String) (f : List UInt8)
    (format : ImgFormat) (dpi : Nat) (font_size : Nat) : Except String (List UInt8) :=
  Except.error "matplotlib not installed; run: `pip install matplotlib`"

/-- `render_latex` in the same environment: it allocates an empty in-memory
buffer, delegates to `_render_latex`, and returns the buffer contents; a
raised error propagates. -/
def render_latex_no_backend (expression : String) (format : ImgFormat)
    (dpi : Nat) (font_size : Nat) : Except String (List UInt8) :=
  match _render_latex_no_backend expression [] format dpi font_size with
  | Except.error e => Except.error e
  | Except.ok buf => Except.ok buf

/-! ### Claim-side detector definitions (for refinement claims C2 and C5) -/

/-- The 2-space-system detector exactly as claim C2 words it: the window of 5
lines before and 5 after the index (clamped to document bounds), collecting
the leading-whitespace count of every non-blank bullet line, true iff some
collected count is even but not a multiple of 4. -/
def claim2SpaceDetector (lines : List Line) (i : Nat) : Bool :=
  ((List.range lines.length).filter (fun j => i - 5 ≤ j && j ≤ i + 5)).any (fun j =>
    let line := lines.getD j []
    !(pyStrip line).isEmpty && bulletStart (pyLstrip line)
      && leadingWS line % 2 == 0 && leadingWS line % 4 != 0)

/-- The detector with the window the code actually uses: 5 lines before and 4
lines after the index (clamped to document bounds). -/
def amended2SpaceDetector (lines : List Line) (i : Nat) : Bool :=
  ((List.range lines.length).filter (fun j => i - 5 ≤ j && j < i + 5)).any (fun j =>
    let line := lines.getD j []
    !(pyStrip line).isEmpty && bulletStart (pyLstrip line)
      && leadingWS line % 2 == 0 && leadingWS line % 4 != 0)

/-- The backward scan exactly as claim C5 words it: starting at `index - 1`,
at most 4 lines (the first argument is the remaining scan budget, the second
is one past the next index to visit), true immediately on a bullet line,
false immediately on a non-blank zero-indent line, false on exhaustion or at
the document start. -/
def claimScanBack (lines : List Line) : Nat → Nat → Bool
  | 0, _ => false
  | _ + 1, 0 => false
  | fuel + 1, j + 1 =>
    let line := lines.getD j []
    if bulletStart (pyLstrip line) then true
    else if !(pyStrip line).isEmpty && leadingWS line == 0 then false
    else claimScanBack lines fuel j

/-- The list-continuation detector as claim C5 describes it. -/
def claimListContinuation (lines : List Line) (i : Nat) : Bool :=
  claimScanBack lines 4 i

/-! ### Derived views of the line pass -/

/-- The loop state before line `i` is processed (index-recomputed form of the
state threading in `runAux`). -/
def stAt (lines : List Line) : Nat → St
  | 0 => ⟨false, false⟩
  | i + 1 => (step lines i (stAt lines i) (lines.getD i [])).1

/-- The line emitted for index `i`. -/
def lineAt (lines : List Line) (i : Nat) : Line :=
  (step lines i (stAt lines i) (lines.getD i [])).2

/-- A line that feeds the 2-space detector: a bullet line whose
leading-whitespace count is positive, even, and not a multiple of 4. -/
def evidenceLine (l : Line) : Bool :=
  !(pyStrip l).isEmpty && bulletStart (pyLstrip l)
    && decide (0 < leadingWS l) && leadingWS l % 2 == 0 && leadingWS l % 4 != 0

/-- The number of fence-delimiter lines among the first `k` lines. -/
def fencesBefore (lines : List Line) (k : Nat) : Nat :=
  (lines.take k).countP fenceLine

/-- The line classes that claim C4 exempts from reindentation: blank lines,
fence delimiters, code-block interiors, admonition bodies, zero-indent lines,
lines opening with a backtick, `#`, or `>`, and lines failing the
reindentation candidacy test. -/
def reindentExempt (lines : List Line) (k : Nat) : Bool :=
  let line := lines.getD k []
  (pyStrip line).isEmpty || fenceLine line || (stAt lines k).inCodeBlock
    || (stAt lines k).inAdmonition || leadingWS line == 0
    || ['`'].isPrefixOf (pyLstrip line) || ['#'].isPrefixOf (pyLstrip line)
    || ['>'].isPrefixOf (pyLstrip line)
    || !(leadingWS line % 2 == 0 && _is_likely_2space_system lines k
        && (bulletStart (pyLstrip line) || numberedStart (pyLstrip line)
            || _is_list_continuation lines k))

/-- A line that clears the admonition state when processed: non-blank, with
zero leading whitespace, not a fence delimiter, not an admonition opener, and
encountered outside a code block. -/
def clearsAdm (lines : List Line) (k : Nat) : Bool :=
  let line := lines.getD k []
  !(pyStrip line).isEmpty && !fenceLine line && !(stAt lines k).inCodeBlock
    && !admStart (pyLstrip line) && leadingWS line == 0

/-! ## Helper lemmas -/

theorem leadingWS_def (l : Line) : leadingWS l = l.length - (pyLstrip l).length := rfl

theorem if_isEmpty_any (l : List Nat) (p : Nat → Bool) :
    (if l.isEmpty then false else l.any p) = l.any p := by
  cases l <;> simp

theorem pyStrip_isEmpty_iff (l : Line) :
    (pyStrip l).isEmpty = true ↔ pyLstrip l = [] := by
  induction l with
  | nil => simp [pyStrip, pyLstrip, stripTrailing]
  | cons c rest ih =>
    by_cases h : pyIsSpace c
    · simpa [pyStrip, pyLstrip, List.dropWhile, h] using ih
    · simp [pyStrip, pyLstrip, List.dropWhile, h, stripTrailing]

/-! ## Claim C2: the 2-space-system detector window -/

theorem detector_amended (lines : List Line) (i : Nat) :
    _is_likely_2space_system lines i = amended2SpaceDetector lines i := by
  simp only [_is_likely_2space_system, amended2SpaceDetector]
  rw [if_isEmpty_any, Bool.eq_iff_iff, List.any_eq_true, List.any_eq_true]
  constructor
  · rintro ⟨s, hs, hpat⟩
    rcases List.mem_filterMap.mp hs with ⟨j, hj, hcol⟩
    rw [List.mem_range'_1] at hj
    simp only [beq_iff_eq, bne_iff_ne, Bool.and_eq_true, decide_eq_true_eq] at hpat
    by_cases h1 : (!(pyStrip (lines.getD j [])).isEmpty
        && bulletStart (pyLstrip (lines.getD j []))) = true
    · rw [if_pos h1] at hcol
      by_cases h2 : leadingWS (lines.getD j []) > 0
      · rw [if_pos h2] at hcol
        simp only [Option.some.injEq] at hcol
        subst hcol
        simp only [Bool.and_eq_true, Bool.not_eq_true'] at h1
        refine ⟨j, List.mem_filter.mpr ⟨List.mem_range.mpr (by omega), ?_⟩, ?_⟩
        · simp only [Bool.and_eq_true, decide_eq_true_eq]
          omega
        · simp only [Bool.and_eq_true, Bool.not_eq_true', beq_iff_eq, bne_iff_ne,
            decide_eq_true_eq]
          exact ⟨⟨⟨h1.1, h1.2⟩, hpat.1⟩, hpat.2⟩
      · rw [if_neg h2] at hcol
        exact absurd hcol (by simp)
    · rw [if_neg h1] at hcol
      exact absurd hcol (by simp)
  · rintro ⟨j, hj, hpred⟩
    rcases List.mem_filter.mp hj with ⟨hjr, hjb⟩
    rw [List.mem_range] at hjr
    simp only [Bool.and_eq_true, decide_eq_true_eq] at hjb
    simp only [Bool.and_eq_true, Bool.not_eq_true', beq_iff_eq, bne_iff_ne,
      decide_eq_true_eq] at hpred
    have hc1 : (!(pyStrip (lines.getD j [])).isEmpty
        && bulletStart (pyLstrip (lines.getD j []))) = true := by
      simp only [Bool.and_eq_true, Bool.not_eq_true']
      exact ⟨hpred.1.1.1, hpred.1.1.2⟩
    have hc2 : leadingWS (lines.getD j []) > 0 := by omega
    refine ⟨leadingWS (lines.getD j []), List.mem_filterMap.mpr ⟨j, ?_, ?_⟩, ?_⟩
    · rw [List.mem_range'_1]
      omega
    · rw [if_pos hc1, if_pos hc2]
    · simp only [beq_iff_eq, bne_iff_ne, Bool.and_eq_true, decide_eq_true_eq]
      exact ⟨hpred.1.2, hpred.2⟩

/-- Claim C2 (corrected form): the 2-space-system detector equals the
claim-side description with the window running from 5 lines before the index
to 4 lines after it (clamped to document bounds); a collected count matters
iff it is even and not a multiple of 4. -/
theorem C2_theorem (lines : List Line) (i : Nat) :
    _is_likely_2space_system lines i = amended2SpaceDetector lines i :=
  detector_amended lines i

/-- Claim C2 as stated is false: with a bullet line exactly 5 lines after the
index, the claimed window (5 lines before and 5 after) sees the evidence, but
`_is_likely_2space_system` does not — its window ends 4 lines after the index. -/
theorem C2_counterexample :
    claim2SpaceDetector (["a", "b", "c", "d", "e", "  * f"].map String.data) 0 = true
    ∧ _is_likely_2space_system (["a", "b", "c", "d", "e", "  * f"].map String.data) 0 = false := by
  decide

/-! ## Claim C5: the list-continuation detector -/

theorem scan_branch (blank bullet zero a : Bool) (h : blank = true → bullet = false) :
    (if !blank then (if bullet then true else if zero then false else a) else a)
    = (if bullet then true else if !blank && zero then false else a) := by
  cases blank
  · cases bullet
    · rfl
    · rfl
  · rw [h rfl]
    rfl

theorem scanBack_eq_claimScanBack (lines : List Line) :
    ∀ fuel j, scanBack lines ((List.range' (j - fuel) (j - (j - fuel))).reverse)
      = claimScanBack lines fuel j := by
  intro fuel
  induction fuel with
  | zero => intro j; simp [scanBack, claimScanBack, Nat.sub_self]
  | succ fuel ih =>
    intro j
    cases j with
    | zero => simp [scanBack, claimScanBack]
    | succ j =>
      have hs : j + 1 - (fuel + 1) = j - fuel := by omega
      have hn : j + 1 - (j + 1 - (fuel + 1)) = (j - (j - fuel)) + 1 := by omega
      rw [hn, hs, List.range'_1_concat, List.reverse_append,
        show j - fuel + (j - (j - fuel)) = j by omega]
      simp only [List.reverse_cons, List.reverse_nil, List.nil_append,
        List.singleton_append]
      show scanBack lines (j :: (List.range' (j - fuel) (j - (j - fuel))).reverse)
        = claimScanBack lines (fuel + 1) (j + 1)
      simp only [scanBack, claimScanBack]
      rw [ih j]
      exact scan_branch ((pyStrip (lines.getD j [])).isEmpty)
        (bulletStart (pyLstrip (lines.getD j [])))
        (leadingWS (lines.getD j []) == 0)
        (claimScanBack lines fuel j)
        (fun hbl => by rw [(pyStrip_isEmpty_iff _).mp hbl]; rfl)

/-- Claim C5 (confirmed): `_is_list_continuation` equals the claim-side
backward scan: starting at the previous line, it visits at most 4 lines,
returns true at the first bullet line, false at the first non-blank
zero-indent line, and false on exhaustion or at the document start. -/
theorem C5_theorem (lines : List Line) (current_index : Nat) :
    _is_list_continuation lines current_index = claimListContinuation lines current_index := by
  unfold _is_list_continuation claimListContinuation backIndices
  cases current_index with
  | zero => rfl
  | succ j =>
    rw [if_neg (by simp)]
    exact scanBack_eq_claimScanBack lines 4 (j + 1)

/-! ## Claim C7: the emoji generator -/

/-- Claim C7 (confirmed): with a supplied codepoint sequence the element's
`data-unicode` attribute is that string verbatim and its text is the decoded
character sequence (so the codepoint sequence takes precedence over the
fallback text); without one the text is the fallback verbatim; and the
`smile`/`1f604` instance yields exactly U+1F604. -/
theorem C7_theorem (index shortname : String) (aliasName : Option String) (alt u : String) :
    ((_emoji_generator index shortname aliasName (some u) alt).attrib.lookup "data-unicode" = some u
      ∧ (_emoji_generator index shortname aliasName (some u) alt).text = claimDecodeUC u)
    ∧ (_emoji_generator index shortname aliasName none alt).text = alt
    ∧ (_emoji_generator "" "smile" (some ":smile:") (some "1f604") "SMILE").text
        = String.mk [Char.ofNat 0x1F604]
    ∧ (_emoji_generator "" "smile" (some ":smile:") (some "1f604") "SMILE").attrib.lookup "data-unicode"
        = some "1f604" := by
  refine ⟨⟨?_, ?_⟩, rfl, by decide, by decide⟩
  · simp [_emoji_generator, List.lookup]
  · simp [_emoji_generator, claimDecodeUC, List.map_eq_foldr]

/-! ## Claims C8 and C10: the fenced-block formatter -/

theorem attrs_serialized_eq (al : List (String × String)) :
    (if al.isEmpty then ""
      else " " ++ pyJoin " " (al.map (fun kv => kv.1 ++ "=\"" ++ kv.2 ++ "\"")))
    = claimAttrsSerialized al := by
  induction al with
  | nil => rfl
  | cons kv rest ih =>
    cases rest with
    | nil =>
      apply String.ext
      simp [pyJoin, claimAttrsSerialized, String.data_append]
    | cons kv2 t =>
      apply String.ext
      simp only [List.isEmpty_cons, if_neg] at ih ⊢
      rw [claimAttrsSerialized, ← ih]
      simp [pyJoin, String.data_append, List.append_assoc]

/-- Claim C8 (confirmed): the formatter's output carries an id attribute only
for a non-empty element id, lists the configured CSS class first regardless of
caller-supplied classes, serializes remaining attributes in insertion order,
and wraps the raw source; in particular the `x^2`/`arithmatex` case produces
exactly the claimed string. -/
theorem C8_theorem (src lang css elementId : String) (clsOpt : Option (List String))
    (attrsOpt : Option (List (String × String))) :
    (_verbatim_formatter "x^2" "math" "arithmatex" none "" none).html
      = "<div class=\"arithmatex\">x^2</div>"
    ∧ (_verbatim_formatter src lang css clsOpt elementId attrsOpt).html
      = claimFormatFence src css (clsOpt.getD []) elementId (attrsOpt.getD []) := by
  constructor
  · rfl
  · have hid : (if elementId.isEmpty then "" else " id=\"" ++ elementId ++ "\"")
        = (if elementId = "" then "" else " id=\"" ++ elementId ++ "\"") := by
      by_cases h : elementId = "" <;> simp [h, String.isEmpty_iff]
    cases clsOpt <;> cases attrsOpt <;>
      (simp only [_verbatim_formatter, claimFormatFence, Option.getD, hid,
        ← attrs_serialized_eq, List.isEmpty_nil, if_true, claimAttrsSerialized]
       apply String.ext
       simp [String.data_append])

/-- Claim C10 (confirmed): when a caller-supplied classes list is present, the
formatter's in-place `insert(0, css_class)` leaves the caller's list with the
configured CSS class as its new first element (mutation modelled by the
`classes_after` component). -/
theorem C10_theorem (source language css_class : String) (cls : List String)
    (id_value : String) (attrs : Option (List (String × String))) :
    (_verbatim_formatter source language css_class (some cls) id_value attrs).classes_after
      = some (css_class :: cls) := rfl

/-! ## Claim C9: the LaTeX rasterizer without matplotlib -/

/-- Claim C9 (confirmed): with matplotlib unavailable, `render_latex` raises
the remediation-hinting `RuntimeError` for every input expression and never
returns image bytes. -/
theorem C9_theorem (expression : String) (format : ImgFormat) (dpi font_size : Nat) :
    render_latex_no_backend expression format dpi font_size
      = Except.error "matplotlib not installed; run: `pip install matplotlib`"
    ∧ ∀ bytes : List UInt8,
        render_latex_no_backend expression format dpi font_size ≠ Except.ok bytes := by
  exact ⟨rfl, fun bytes h => by
    simp [render_latex_no_backend, _render_latex_no_backend] at h⟩

/-! ## Plumbing: indexing the line pass -/

theorem runAux_length (lines : List Line) :
    ∀ rest i st, (runAux lines i st rest).length = rest.length := by
  intro rest
  induction rest with
  | nil => intro i st; rfl
  | cons a rest' ih => intro i st; simp [runAux, ih]

theorem drop_cons_getD (L : List Line) (i : Nat) (a : Line) (rest' : List Line)
    (h : L.drop i = a :: rest') : L.getD i [] = a := by
  rw [List.getD_eq_getElem?_getD, ← List.head?_drop, h]
  rfl

theorem drop_cons_succ (L : List Line) (i : Nat) (a : Line) (rest' : List Line)
    (h : L.drop i = a :: rest') : L.drop (i + 1) = rest' := by
  rw [← List.tail_drop, h]
  rfl

theorem runAux_eq_map (L : List Line) :
    ∀ rest i, L.drop i = rest →
      runAux L i (stAt L i) rest = (List.range' i rest.length).map (lineAt L) := by
  intro rest
  induction rest with
  | nil => intro i _; rfl
  | cons a rest' ih =>
    intro i hdrop
    have ha : L.getD i [] = a := drop_cons_getD L i a rest' hdrop
    have hfst : (step L i (stAt L i) a).1 = stAt L (i + 1) := by
      show _ = (step L i (stAt L i) (L.getD i [])).1
      rw [ha]
    have hsnd : (step L i (stAt L i) a).2 = lineAt L i := by
      show _ = (step L i (stAt L i) (L.getD i [])).2
      rw [ha]
    show (step L i (stAt L i) a).2 :: runAux L (i + 1) (step L i (stAt L i) a).1 rest'
      = (List.range' i (rest'.length + 1)).map (lineAt L)
    rw [List.range'_succ, List.map_cons, hsnd, hfst,
      ih (i + 1) (drop_cons_succ L i a rest' hdrop)]

theorem processLines_eq_map (L : List Line) :
    processLines L = (List.range' 0 L.length).map (lineAt L) := by
  have h := runAux_eq_map L L 0 rfl
  simpa [processLines] using h

theorem processLines_length (L : List Line) :
    (processLines L).length = L.length :=
  runAux_length L L 0 ⟨false, false⟩

theorem processLines_getD (L : List Line) (k : Nat) (hk : k < L.length) :
    (processLines L).getD k [] = lineAt L k := by
  rw [processLines_eq_map, List.getD_eq_getElem?_getD, List.getElem?_map,
    List.getElem?_range' 0 1 hk]
  simp

/-! ## Plumbing: splitting and joining lines -/

theorem splitOnChar_ne_nil (sep : Char) (s : List Char) : splitOnChar sep s ≠ [] := by
  induction s with
  | nil => simp [splitOnChar]
  | cons c rest ih =>
    by_cases h : c = sep
    · simp [splitOnChar, h]
    · simp only [splitOnChar, if_neg h]
      cases hr : splitOnChar sep rest with
      | nil => simp
      | cons l ls => simp

theorem mem_splitOnChar_not_mem (sep : Char) (s : List Char) :
    ∀ l ∈ splitOnChar sep s, sep ∉ l := by
  induction s with
  | nil =>
    intro l hl
    simp only [splitOnChar, List.mem_singleton] at hl
    simp [hl]
  | cons c rest ih =>
    intro l hl
    by_cases h : c = sep
    · rw [splitOnChar, if_pos h] at hl
      rcases List.mem_cons.mp hl with rfl | hmem
      · simp
      · exact ih l hmem
    · rw [splitOnChar, if_neg h] at hl
      cases hr : splitOnChar sep rest with
      | nil => exact absurd hr (splitOnChar_ne_nil sep rest)
      | cons l0 ls =>
        rw [hr] at hl
        rcases List.mem_cons.mp hl with rfl | hmem
        · intro hc
          rcases List.mem_cons.mp hc with rfl | hc0
          · exact h rfl
          · exact ih l0 (hr ▸ List.mem_cons_self l0 ls) hc0
        · exact ih l (hr ▸ List.mem_cons_of_mem l0 hmem)

theorem splitOnChar_of_not_mem (sep : Char) (l : List Char) (h : sep ∉ l) :
    splitOnChar sep l = [l] := by
  induction l with
  | nil => rfl
  | cons c rest ih =>
    have hc : ¬c = sep := fun hc => h (hc ▸ List.mem_cons_self c rest)
    have hrest : sep ∉ rest := fun hm => h (List.mem_cons_of_mem c hm)
    rw [splitOnChar, if_neg hc, ih hrest]

theorem splitOnChar_append (sep : Char) (l r : List Char) (h : sep ∉ l) :
    splitOnChar sep (l ++ sep :: r) = l :: splitOnChar sep r := by
  induction l with
  | nil => simp [splitOnChar]
  | cons c rest ih =>
    have hc : ¬c = sep := fun hc => h (hc ▸ List.mem_cons_self c rest)
    have hrest : sep ∉ rest := fun hm => h (List.mem_cons_of_mem c hm)
    rw [List.cons_append, splitOnChar, if_neg hc, ih hrest]

theorem split_join (xs : List (List Char)) (hne : xs ≠ [])
    (hnl : ∀ l ∈ xs, '\n' ∉ l) : splitLines (joinLines xs) = xs := by
  induction xs with
  | nil => exact absurd rfl hne
  | cons x xs' ih =>
    cases xs' with
    | nil =>
      show splitOnChar '\n' x = [x]
      exact splitOnChar_of_not_mem '\n' x (hnl x (List.mem_cons_self x []))
    | cons y t =>
      show splitOnChar '\n' (x ++ '\n' :: joinLines (y :: t)) = x :: (y :: t)
      rw [splitOnChar_append '\n' x _ (hnl x (List.mem_cons_self x (y :: t)))]
      have := ih (by simp) (fun l hl => hnl l (List.mem_cons_of_mem x hl))
      rw [show splitLines (joinLines (y :: t)) = splitOnChar '\n' (joinLines (y :: t)) from rfl] at this
      rw [this]

/-! ## Plumbing: case analysis of one loop iteration -/

theorem step_snd_cases (L : List Line) (i : Nat) (st : St) (l : Line) :
    (step L i st l).2 = l
    ∨ ((pyStrip l).isEmpty = false ∧ fenceLine l = false ∧ st.inCodeBlock = false
        ∧ admStart (pyLstrip l) = false ∧ st.inAdmonition = false
        ∧ leadingWS l ≠ 0
        ∧ ['`'].isPrefixOf (pyLstrip l) = false ∧ ['#'].isPrefixOf (pyLstrip l) = false
        ∧ ['>'].isPrefixOf (pyLstrip l) = false
        ∧ leadingWS l % 2 = 0 ∧ _is_likely_2space_system L i = true
        ∧ (bulletStart (pyLstrip l) || numberedStart (pyLstrip l)
            || _is_list_continuation L i) = true
        ∧ (step L i st l).2 = List.replicate ((leadingWS l / 2) * 4) ' ' ++ pyLstrip l) := by
  simp only [step]
  split_ifs with h1 h2 h3 h4 h5 h6 h7 h8 h9 h10
  all_goals try exact Or.inl rfl
  · exfalso
    simp only [Bool.and_eq_true, beq_iff_eq] at h5
    simp only [Bool.or_eq_true, not_or] at h6
    exact h6.1.1.1.1 (by simp [h5.1.2])
  · simp only [Bool.not_eq_true] at h1 h2 h3 h4
    simp only [Bool.or_eq_true, not_or, Bool.not_eq_true, beq_eq_false_iff_ne] at h8
    simp only [Bool.and_eq_true, beq_iff_eq] at h9
    exact Or.inr ⟨h1, h2, h3, h4, h8.2, h8.1.1.1.1, h8.1.1.1.2, h8.1.1.2, h8.1.2,
      h9.1.1, h9.1.2, h9.2, rfl⟩

/-! ## Counterexamples for claims C1 and C6 -/

/-- Claim C1 as stated is false: a 2-space bullet line inside a fenced code
block is preserved by the first pass and still feeds the 2-space detector on
the second pass, so the already-converted neighbouring line is reindented
again (4 spaces become 8). -/
theorem C1_counterexample :
    _preprocess_list_indentation (_preprocess_list_indentation "```\n  * code\n```\n  * item")
      ≠ _preprocess_list_indentation "```\n  * code\n```\n  * item" := by
  decide

/-- Claim C6 as stated is false: in this input line 1 matches the admonition
opener and every later line has positive leading whitespace, so the claim
requires lines 2-4 to be emitted unchanged; but the opener sits inside a code
block (so the state is never set) and the code reindents line 3. -/
theorem C6_counterexample :
    admStart (pyLstrip ((["~~~", "!!! note", "  ~~~", "  * a", "  * b"].map String.data).getD 1 [])) = true
    ∧ 0 < leadingWS ((["~~~", "!!! note", "  ~~~", "  * a", "  * b"].map String.data).getD 2 [])
    ∧ 0 < leadingWS ((["~~~", "!!! note", "  ~~~", "  * a", "  * b"].map String.data).getD 3 [])
    ∧ (processLines (["~~~", "!!! note", "  ~~~", "  * a", "  * b"].map String.data)).getD 3 []
      ≠ (["~~~", "!!! note", "  ~~~", "  * a", "  * b"].map String.data).getD 3 [] := by
  decide

/-! ## Character-level helpers -/

theorem pyLstrip_idem (l : Line) : pyLstrip (pyLstrip l) = pyLstrip l := by
  induction l with
  | nil => rfl
  | cons c rest ih =>
    by_cases h : pyIsSpace c
    · simpa [pyLstrip, List.dropWhile_cons, h] using ih
    · simp [pyLstrip, List.dropWhile_cons, h]

theorem pyLstrip_replicate_append (k : Nat) (s : Line) :
    pyLstrip (List.replicate k ' ' ++ s) = pyLstrip s := by
  induction k with
  | zero => rfl
  | succ k ih =>
    simpa [pyLstrip, List.replicate_succ, List.dropWhile_cons,
      (by decide : pyIsSpace ' ' = true)] using ih

theorem leadingWS_convert (l : Line) (k : Nat) :
    leadingWS (List.replicate k ' ' ++ pyLstrip l) = k := by
  rw [leadingWS_def, pyLstrip_replicate_append, pyLstrip_idem]
  simp

theorem getD_mem (L : List Line) (j : Nat) (h : j < L.length) : L.getD j [] ∈ L := by
  rw [List.getD_eq_getElem L [] h]
  exact List.getElem_mem h

theorem st_ext (a b : St) (h1 : a.inAdmonition = b.inAdmonition)
    (h2 : a.inCodeBlock = b.inCodeBlock) : a = b := by
  cases a
  cases b
  simp_all

theorem blank_not_fence (l : Line) (h : (pyStrip l).isEmpty = true) :
    fenceLine l = false := by
  rw [List.isEmpty_iff] at h
  simp [fenceLine, h, List.isPrefixOf]

theorem stripTrailing_cons_not_space (c : Char) (r : Line) (h : pyIsSpace c = false) :
    stripTrailing (c :: r) = c :: stripTrailing r := by
  simp [stripTrailing, h]

theorem adm_not_fence (l : Line) (h : admStart (pyLstrip l) = true) :
    fenceLine l = false := by
  rw [admStart, List.isPrefixOf_iff_prefix] at h
  obtain ⟨t, ht⟩ := h
  have hps : pyStrip l = '!' :: stripTrailing ('!' :: '!' :: t) := by
    rw [pyStrip, ← ht]
    exact stripTrailing_cons_not_space '!' _ (by decide)
  simp [fenceLine, hps, List.isPrefixOf]

theorem bullet_head (s : Line) (h : bulletStart s = true) :
    ∃ c t, s = c :: ' ' :: t ∧ (c = '*' ∨ c = '-' ∨ c = '+') := by
  simp only [bulletStart, Bool.or_eq_true, List.isPrefixOf_iff_prefix] at h
  rcases h with (h | h) | h <;> obtain ⟨t, ht⟩ := h
  · exact ⟨'*', t, ht.symm, Or.inl rfl⟩
  · exact ⟨'-', t, ht.symm, Or.inr (Or.inl rfl)⟩
  · exact ⟨'+', t, ht.symm, Or.inr (Or.inr rfl)⟩

theorem bullet_not_special (s : Line) (h : bulletStart s = true) :
    ['`'].isPrefixOf s = false ∧ ['#'].isPrefixOf s = false
    ∧ ['>'].isPrefixOf s = false ∧ admStart s = false ∧ s ≠ [] := by
  obtain ⟨c, t, rfl, hc⟩ := bullet_head s h
  rcases hc with rfl | rfl | rfl <;>
    exact ⟨by simp [List.isPrefixOf], by simp [List.isPrefixOf],
      by simp [List.isPrefixOf], by simp [admStart, List.isPrefixOf], by simp⟩

/-! ## State evolution of the line pass -/

theorem step_fst_inCode (L : List Line) (i : Nat) (st : St) (l : Line) :
    (step L i st l).1.inCodeBlock
      = if fenceLine l then !st.inCodeBlock else st.inCodeBlock := by
  simp only [step]
  split_ifs with h1 h2 h3 h4 h5 h6 h7 h8 h9 h10
  all_goals try rfl
  all_goals simp_all [blank_not_fence]

theorem step_fst_inAdm (L : List Line) (i : Nat) (st : St) (l : Line) :
    (step L i st l).1.inAdmonition =
      if (pyStrip l).isEmpty then st.inAdmonition
      else if fenceLine l then st.inAdmonition
      else if st.inCodeBlock then st.inAdmonition
      else if admStart (pyLstrip l) then true
      else if leadingWS l == 0 then false
      else st.inAdmonition := by
  have hne : (pyStrip l).isEmpty = false → (pyLstrip l).isEmpty = false := by
    intro hn
    rw [Bool.eq_false_iff]
    intro hc
    rw [List.isEmpty_iff] at hc
    rw [(pyStrip_isEmpty_iff l).mpr hc] at hn
    cases hn
  simp only [step]
  split_ifs with h1 h2 h3 h4 h5 h6 h7 h8 h9 h10
  all_goals try rfl
  all_goals simp_all [Bool.and_eq_true, beq_iff_eq]
  all_goals omega

theorem parity_flip (n : Nat) : (!(n % 2 == 1)) = ((n + 1) % 2 == 1) := by
  rcases Nat.mod_two_eq_zero_or_one n with h | h <;> simp [Nat.add_mod, h]

theorem stAt_inCode (L : List Line) :
    ∀ k, (stAt L k).inCodeBlock = (fencesBefore L k % 2 == 1) := by
  intro k
  induction k with
  | zero => rfl
  | succ k ih =>
    show (step L k (stAt L k) (L.getD k [])).1.inCodeBlock = _
    rw [step_fst_inCode]
    by_cases hk : k < L.length
    · have htake : fencesBefore L (k + 1)
          = fencesBefore L k + (if fenceLine (L.getD k []) then 1 else 0) := by
        unfold fencesBefore
        rw [List.take_succ, List.countP_append, List.getElem?_eq_getElem hk]
        rw [List.getD_eq_getElem L [] hk]
        cases hf : fenceLine L[k] <;> simp [List.countP_cons, hf]
      rw [htake]
      cases hf : fenceLine (L.getD k [])
      · simp [hf, ih]
      · rw [if_pos rfl, if_pos rfl, ih]
        exact parity_flip _
    · have hnone : L.getD k [] = [] := by
        rw [List.getD_eq_getElem?_getD, List.getElem?_eq_none (by omega)]
        rfl
      have hfb : fenceLine ([] : Line) = false := by decide
      rw [hnone, hfb]
      have htake : fencesBefore L (k + 1) = fencesBefore L k := by
        unfold fencesBefore
        rw [List.take_succ, List.countP_append, List.getElem?_eq_none (by omega)]
        simp
      rw [htake]
      simpa using ih

theorem step_fst_plain (L : List Line) (i : Nat) (l : Line)
    (hf : fenceLine l = false) (ha : admStart (pyLstrip l) = false) :
    (step L i ⟨false, false⟩ l).1 = ⟨false, false⟩ := by
  apply st_ext
  · rw [step_fst_inAdm, hf, ha]
    split_ifs <;> rfl
  · rw [step_fst_inCode, hf]
    rfl

/-! ## Fixed-point lemmas for the normalizer -/

theorem detector_false_of_no_evidence (L : List Line)
    (h : ∀ l ∈ L, evidenceLine l = false) (i : Nat) :
    _is_likely_2space_system L i = false := by
  rw [detector_amended, amended2SpaceDetector, List.any_eq_false]
  intro j hj
  rcases List.mem_filter.mp hj with ⟨hjr, _⟩
  rw [List.mem_range] at hjr
  intro hbody
  simp only [Bool.and_eq_true, Bool.not_eq_true', beq_iff_eq, bne_iff_ne] at hbody
  have hev : evidenceLine (L.getD j []) = true := by
    simp only [evidenceLine, Bool.and_eq_true, Bool.not_eq_true', beq_iff_eq,
      bne_iff_ne, decide_eq_true_eq]
    exact ⟨⟨⟨⟨hbody.1.1.1, hbody.1.1.2⟩, by omega⟩, hbody.1.2⟩, hbody.2⟩
  rw [h (L.getD j []) (getD_mem L j hjr)] at hev
  cases hev

theorem detector_true_at_evidence (L : List Line) (i : Nat) (hi : i < L.length)
    (hev : evidenceLine (L.getD i []) = true) :
    _is_likely_2space_system L i = true := by
  rw [detector_amended, amended2SpaceDetector, List.any_eq_true]
  simp only [evidenceLine, Bool.and_eq_true, Bool.not_eq_true', beq_iff_eq,
    bne_iff_ne, decide_eq_true_eq] at hev
  refine ⟨i, List.mem_filter.mpr ⟨List.mem_range.mpr hi, ?_⟩, ?_⟩
  · simp only [Bool.and_eq_true, decide_eq_true_eq]
    omega
  · simp only [Bool.and_eq_true, Bool.not_eq_true', beq_iff_eq, bne_iff_ne]
    exact ⟨⟨⟨hev.1.1.1.1, hev.1.1.1.2⟩, hev.1.2⟩, hev.2⟩

theorem runAux_fixed (L : List Line) (h : ∀ l ∈ L, evidenceLine l = false) :
    ∀ rest i st, runAux L i st rest = rest := by
  intro rest
  induction rest with
  | nil => intro i st; rfl
  | cons a rest' ih =>
    intro i st
    show (step L i st a).2 :: runAux L (i + 1) (step L i st a).1 rest' = a :: rest'
    rcases step_snd_cases L i st a with hs | hs
    · rw [hs, ih]
    · obtain ⟨_, _, _, _, _, _, _, _, _, _, hdet, _, _⟩ := hs
      rw [detector_false_of_no_evidence L h i] at hdet
      cases hdet

theorem processLines_fixed (L : List Line) (h : ∀ l ∈ L, evidenceLine l = false) :
    processLines L = L :=
  runAux_fixed L h L 0 ⟨false, false⟩

theorem evidence_converted_false (l : Line) (k : Nat) :
    evidenceLine (List.replicate (k * 4) ' ' ++ pyLstrip l) = false := by
  have hlw : leadingWS (List.replicate (k * 4) ' ' ++ pyLstrip l) = k * 4 :=
    leadingWS_convert l (k * 4)
  simp [evidenceLine, hlw, Nat.mul_mod_left]

theorem step_converts (L : List Line) (i : Nat) (l : Line)
    (hfence : fenceLine l = false) (hadm : admStart (pyLstrip l) = false)
    (hev : evidenceLine l = true) (hdet : _is_likely_2space_system L i = true) :
    (step L i ⟨false, false⟩ l).2
      = List.replicate ((leadingWS l / 2) * 4) ' ' ++ pyLstrip l := by
  simp only [evidenceLine, Bool.and_eq_true, Bool.not_eq_true', beq_iff_eq,
    bne_iff_ne, decide_eq_true_eq] at hev
  obtain ⟨⟨⟨⟨hnb, hbul⟩, hpos⟩, h2⟩, h4⟩ := hev
  obtain ⟨hbt, hhash, hgt, _, _⟩ := bullet_not_special _ hbul
  simp only [step]
  rw [if_neg (by simp [hnb]), if_neg (by simp [hfence]),
    if_neg (by simp : ¬(St.mk false false).inCodeBlock = true),
    if_neg (by simp [hadm]),
    if_neg (by simp : ¬((St.mk false false).inAdmonition && leadingWS l == 0
      && !(pyLstrip l).isEmpty) = true),
    if_neg (by simp [hbt, hhash, hgt]; omega),
    if_pos (by simp [h2, hdet, hbul])]

/-! ## The first pass leaves no 2-space evidence (fence- and admonition-free inputs) -/

theorem runAux_no_evidence (L : List Line)
    (HF : ∀ l ∈ L, fenceLine l = false) (HA : ∀ l ∈ L, admStart (pyLstrip l) = false) :
    ∀ rest i, L.drop i = rest →
      ∀ l' ∈ runAux L i ⟨false, false⟩ rest, evidenceLine l' = false := by
  intro rest
  induction rest with
  | nil =>
    intro i _ l' hl'
    cases hl'
  | cons a rest' ih =>
    intro i hdrop l' hl'
    have ha : L.getD i [] = a := drop_cons_getD L i a rest' hdrop
    have hlen : i < L.length := by
      have := congrArg List.length hdrop
      rw [List.length_drop] at this
      simp only [List.length_cons] at this
      omega
    have haM : a ∈ L := ha ▸ getD_mem L i hlen
    have hfst : (step L i ⟨false, false⟩ a).1 = ⟨false, false⟩ :=
      step_fst_plain L i a (HF a haM) (HA a haM)
    rw [show runAux L i ⟨false, false⟩ (a :: rest')
      = (step L i ⟨false, false⟩ a).2
        :: runAux L (i + 1) (step L i ⟨false, false⟩ a).1 rest' from rfl, hfst] at hl'
    rcases List.mem_cons.mp hl' with rfl | hmem
    · by_cases hev : evidenceLine a = true
      · have hdet : _is_likely_2space_system L i = true := by
          apply detector_true_at_evidence L i hlen
          rw [ha]
          exact hev
        rw [step_converts L i a (HF a haM) (HA a haM) hev hdet]
        exact evidence_converted_false a (leadingWS a / 2)
      · rcases step_snd_cases L i ⟨false, false⟩ a with hs | hs
        · rw [hs]
          exact Bool.eq_false_iff.mpr hev
        · obtain ⟨_, _, _, _, _, _, _, _, _, _, _, _, hsnd⟩ := hs
          rw [hsnd]
          exact evidence_converted_false a (leadingWS a / 2)
    · exact ih (i + 1) (drop_cons_succ L i a rest' hdrop) l' hmem

theorem processLines_no_evidence (L : List Line)
    (HF : ∀ l ∈ L, fenceLine l = false) (HA : ∀ l ∈ L, admStart (pyLstrip l) = false) :
    ∀ l' ∈ processLines L, evidenceLine l' = false :=
  runAux_no_evidence L HF HA L 0 rfl

/-! ## Output lines contain no newline characters -/

theorem runAux_no_newline (L : List Line) :
    ∀ rest i st, (∀ l ∈ rest, '\n' ∉ l) →
      ∀ l' ∈ runAux L i st rest, '\n' ∉ l' := by
  intro rest
  induction rest with
  | nil =>
    intro i st _ l' hl'
    cases hl'
  | cons a rest' ih =>
    intro i st hres l' hl'
    rw [show runAux L i st (a :: rest')
      = (step L i st a).2 :: runAux L (i + 1) (step L i st a).1 rest' from rfl] at hl'
    rcases List.mem_cons.mp hl' with rfl | hmem
    · rcases step_snd_cases L i st a with hs | hs
      · rw [hs]
        exact hres a (List.mem_cons_self a rest')
      · obtain ⟨_, _, _, _, _, _, _, _, _, _, _, _, hsnd⟩ := hs
        rw [hsnd]
        intro hc
        rcases List.mem_append.mp hc with hrep | hstr
        · exact absurd (List.eq_of_mem_replicate hrep) (by decide)
        · exact hres a (List.mem_cons_self a rest')
            ((List.dropWhile_sublist pyIsSpace).mem hstr)
    · exact ih (i + 1) (step L i st a).1 (fun l hl => hres l (List.mem_cons_of_mem a hl))
        l' hmem

theorem processLines_no_newline (L : List Line) (h : ∀ l ∈ L, '\n' ∉ l) :
    ∀ l' ∈ processLines L, '\n' ∉ l' :=
  runAux_no_newline L L 0 ⟨false, false⟩ h

theorem processLines_ne_nil (L : List Line) (h : L ≠ []) : processLines L ≠ [] := by
  intro hc
  apply h
  have hlen := processLines_length L
  rw [hc] at hlen
  exact List.length_eq_zero.mp hlen.symm

theorem splitLines_preprocess (content : String) :
    splitLines (_preprocess_list_indentation content).data
      = processLines (splitLines content.data) := by
  show splitLines (joinLines (processLines (splitLines content.data))) = _
  exact split_join _ (processLines_ne_nil _ (splitOnChar_ne_nil '\n' _))
    (processLines_no_newline _ (mem_splitOnChar_not_mem '\n' content.data))

/-! ## Claim C1: idempotence of the normalizer -/

/-- Claim C1 (corrected form): `_preprocess_list_indentation` is idempotent on
every input none of whose lines is a fence delimiter or an admonition opener.
(In general it is not idempotent: 2-space bullet lines preserved inside code
blocks or admonition bodies still feed the 2-space detector on a second pass,
see the counterexample.) -/
theorem C1_theorem (content : String)
    (h : ∀ l ∈ splitLines content.data,
      fenceLine l = false ∧ admStart (pyLstrip l) = false) :
    _preprocess_list_indentation (_preprocess_list_indentation content)
      = _preprocess_list_indentation content := by
  have hev : ∀ l' ∈ processLines (splitLines content.data), evidenceLine l' = false :=
    processLines_no_evidence (splitLines content.data)
      (fun l hl => (h l hl).1) (fun l hl => (h l hl).2)
  show String.mk (joinLines (processLines
    (splitLines (_preprocess_list_indentation content).data))) = _
  rw [splitLines_preprocess, processLines_fixed _ hev]
  rfl

theorem C1_witness :
    (∀ l ∈ splitLines ("  * a\n  * b" : String).data,
      fenceLine l = false ∧ admStart (pyLstrip l) = false)
    ∧ _preprocess_list_indentation (_preprocess_list_indentation "  * a\n  * b")
      = _preprocess_list_indentation "  * a\n  * b" :=
  ⟨by decide, C1_theorem "  * a\n  * b" (by decide)⟩

/-! ## Claim C3: code-block interiors pass through unchanged -/

/-- Claim C3 (confirmed): a line lying strictly inside a fenced code block —
an odd number of fence-delimiter lines precede it and it is not itself a
fence delimiter (under the toggling fence semantics, the matching closing
fence is the next fence-delimiter line) — is returned by
`_preprocess_list_indentation` unchanged, regardless of its indentation or
content. -/
theorem C3_theorem (content : String) (k : Nat)
    (hk : k < (splitLines content.data).length)
    (hodd : fencesBefore (splitLines content.data) k % 2 = 1)
    (hnf : fenceLine ((splitLines content.data).getD k []) = false) :
    (splitLines (_preprocess_list_indentation content).data).getD k []
      = (splitLines content.data).getD k [] := by
  rw [splitLines_preprocess, processLines_getD _ _ hk]
  rcases step_snd_cases (splitLines content.data) k
    (stAt (splitLines content.data) k) ((splitLines content.data).getD k []) with hs | hs
  · exact hs
  · obtain ⟨_, _, hcode, _⟩ := hs
    rw [stAt_inCode] at hcode
    simp only [beq_eq_false_iff_ne] at hcode
    omega

theorem C3_witness :
    (1 < (splitLines ("```\n    w\n```" : String).data).length
      ∧ fencesBefore (splitLines ("```\n    w\n```" : String).data) 1 % 2 = 1
      ∧ fenceLine ((splitLines ("```\n    w\n```" : String).data).getD 1 []) = false)
    ∧ (splitLines (_preprocess_list_indentation "```\n    w\n```").data).getD 1 []
      = (splitLines ("```\n    w\n```" : String).data).getD 1 [] :=
  ⟨by decide, C3_theorem "```\n    w\n```" 1 (by decide) (by decide) (by decide)⟩

/-! ## Claim C4: line count preserved; exempt lines pass through byte-for-byte -/

/-- Claim C4 (confirmed): the output has the same number of lines as the
input, and every line in one of the exempt classes (blank, fence delimiter,
code-block interior, admonition body, zero indentation, opening with a
backtick, `#`, or `>`, or failing the reindentation candidacy test) is
reproduced byte-for-byte. -/
theorem C4_theorem (content : String) (k : Nat) :
    (splitLines (_preprocess_list_indentation content).data).length
      = (splitLines content.data).length
    ∧ (k < (splitLines content.data).length →
        reindentExempt (splitLines content.data) k = true →
        (splitLines (_preprocess_list_indentation content).data).getD k []
          = (splitLines content.data).getD k []) := by
  constructor
  · rw [splitLines_preprocess, processLines_length]
  · intro hk hex
    rw [splitLines_preprocess, processLines_getD _ _ hk]
    rcases step_snd_cases (splitLines content.data) k
      (stAt (splitLines content.data) k) ((splitLines content.data).getD k []) with hs | hs
    · exact hs
    · obtain ⟨he1, he2, he3, he4, he5, he6, he7, he8, he9, he10, he11, he12, _⟩ := hs
      simp only [reindentExempt, Bool.or_eq_true, Bool.not_eq_true'] at hex
      rcases hex with ((((((((h | h) | h) | h) | h) | h) | h) | h) | h)
      · rw [he1] at h
        cases h
      · rw [he2] at h
        cases h
      · rw [he3] at h
        cases h
      · rw [he5] at h
        cases h
      · simp only [beq_iff_eq] at h
        exact absurd h he6
      · rw [he7] at h
        cases h
      · rw [he8] at h
        cases h
      · rw [he9] at h
        cases h
      · rw [he11, he12] at h
        rw [show (leadingWS ((splitLines content.data).getD k []) % 2 == 0) = true
            from by rw [he10]; rfl] at h
        simp at h

theorem C4_witness :
    (1 < (splitLines ("# t\n  x" : String).data).length
      ∧ reindentExempt (splitLines ("# t\n  x" : String).data) 1 = true)
    ∧ (splitLines (_preprocess_list_indentation "# t\n  x").data).length
      = (splitLines ("# t\n  x" : String).data).length
    ∧ (splitLines (_preprocess_list_indentation "# t\n  x").data).getD 1 []
      = (splitLines ("# t\n  x" : String).data).getD 1 [] :=
  ⟨by decide, ( C4_theorem "# t\n  x" 1).1,
    ( C4_theorem "# t\n  x" 1).2 (by decide) (by decide)⟩

/-! ## Claim C6: admonition containment -/

theorem adm_set (L : List Line) (i : Nat)
    (hcode : (stAt L i).inCodeBlock = false)
    (hopen : admStart (pyLstrip (L.getD i [])) = true) :
    (stAt L (i + 1)).inAdmonition = true := by
  show (step L i (stAt L i) (L.getD i [])).1.inAdmonition = true
  rw [step_fst_inAdm]
  have hnb : (pyStrip (L.getD i [])).isEmpty = false := by
    rw [Bool.eq_false_iff]
    intro hc
    rw [pyStrip_isEmpty_iff] at hc
    rw [hc] at hopen
    exact absurd hopen (by decide)
  rw [hnb, adm_not_fence _ hopen, hcode, hopen]
  rfl

theorem adm_keep (L : List Line) (k : Nat)
    (hadm : (stAt L k).inAdmonition = true) (hcl : clearsAdm L k = false) :
    (stAt L (k + 1)).inAdmonition = true := by
  show (step L k (stAt L k) (L.getD k [])).1.inAdmonition = true
  rw [step_fst_inAdm]
  by_cases h1 : (pyStrip (L.getD k [])).isEmpty = true
  · rw [if_pos h1]
    exact hadm
  · rw [if_neg h1]
    by_cases h2 : fenceLine (L.getD k []) = true
    · rw [if_pos h2]
      exact hadm
    · rw [if_neg h2]
      by_cases h3 : (stAt L k).inCodeBlock = true
      · rw [if_pos h3]
        exact hadm
      · rw [if_neg h3]
        by_cases h4 : admStart (pyLstrip (L.getD k [])) = true
        · rw [if_pos h4]
        · rw [if_neg h4]
          have e1 : (pyStrip (L.getD k [])).isEmpty = false := Bool.eq_false_iff.mpr h1
          have e2 : fenceLine (L.getD k []) = false := Bool.eq_false_iff.mpr h2
          have e3 : (stAt L k).inCodeBlock = false := Bool.eq_false_iff.mpr h3
          have e4 : admStart (pyLstrip (L.getD k [])) = false := Bool.eq_false_iff.mpr h4
          have h5 : (leadingWS (L.getD k []) == 0) = false := by
            simp only [clearsAdm, e1, e2, e3, e4, Bool.not_false, Bool.true_and] at hcl
            exact hcl
          rw [if_neg (fun hc => by rw [h5] at hc; cases hc)]
          exact hadm

/-- Claim C6 (corrected form): once the admonition state is set — by an
opener processed outside a code block — every subsequent line is emitted
unchanged while the state holds, and the state persists until the first
subsequent line that is non-blank, has zero leading whitespace, is neither a
fence delimiter nor an admonition opener, and is processed outside a code
block.  (As stated the claim is false: an opener inside a code block never
sets the state, and a zero-leading fence delimiter, or a zero-leading line
inside a code block, does not clear it — see the counterexample.) -/
theorem C6_theorem (content : String) (i j : Nat)
    (hij : i < j) (hj : j < (splitLines content.data).length)
    (hopen : admStart (pyLstrip ((splitLines content.data).getD i [])) = true)
    (hcode : (stAt (splitLines content.data) i).inCodeBlock = false)
    (hbetween : ∀ k, i < k → k < j → clearsAdm (splitLines content.data) k = false) :
    (stAt (splitLines content.data) j).inAdmonition = true
    ∧ (splitLines (_preprocess_list_indentation content).data).getD j []
      = (splitLines content.data).getD j [] := by
  have key : ∀ m (hm : i + 1 ≤ m), m ≤ j →
      (stAt (splitLines content.data) m).inAdmonition = true := by
    intro m hm
    induction m, hm using Nat.le_induction with
    | base => exact fun _ => adm_set _ i hcode hopen
    | succ n hn ihn =>
      intro hnj
      exact adm_keep _ n (ihn (by omega)) (hbetween n (by omega) (by omega))
  have hadm : (stAt (splitLines content.data) j).inAdmonition = true :=
    key j (by omega) le_rfl
  refine ⟨hadm, ?_⟩
  rw [splitLines_preprocess, processLines_getD _ _ hj]
  rcases step_snd_cases (splitLines content.data) j
    (stAt (splitLines content.data) j) ((splitLines content.data).getD j []) with hs | hs
  · exact hs
  · obtain ⟨_, _, _, _, he5, _⟩ := hs
    rw [he5] at hadm
    cases hadm

theorem C6_witness :
    (0 < 1 ∧ 1 < (splitLines ("!!! note\n    body" : String).data).length
      ∧ admStart (pyLstrip ((splitLines ("!!! note\n    body" : String).data).getD 0 [])) = true
      ∧ (stAt (splitLines ("!!! note\n    body" : String).data) 0).inCodeBlock = false)
    ∧ (stAt (splitLines ("!!! note\n    body" : String).data) 1).inAdmonition = true
    ∧ (splitLines (_preprocess_list_indentation "!!! note\n    body").data).getD 1 []
      = (splitLines ("!!! note\n    body" : String).data).getD 1 [] :=
  ⟨by decide, C6_theorem "!!! note\n    body" 0 1 (by decide) (by decide) (by decide)
    (by decide) (fun k h1 h2 => absurd (h1.trans h2) (by omega))⟩

end Md2Conf
